import Mathlib

/-
Verification development for the helio_mkmovie pipeline
(`helio_mkmovie.py`: get_png, timestamp, mk_movie).

Conventions of the shallow embedding:
* Civil timestamps are modelled by `CivilDT` (year/month/day/hour/minute/second)
  and converted to an absolute count of seconds (`dtToSeconds`) with exact
  86400-second days, matching Python's naive `datetime` arithmetic.
* Instants handed to the archive client are absolute seconds (`Nat`); the civil
  seconds-field of an instant `t` is `t % 60`, valid because the epoch of
  `dtToSeconds` lies on a minute boundary and naive datetimes have no leap
  seconds.
* Python floats are idealised as exact rationals (`ℚ`).
* `numpy.sin` and the astropy coordinate transform are external collaborators:
  the sine function is an abstract parameter `sinf : ℚ → ℚ` and the
  heliographic latitude it is applied to is an abstract parameter `lat : ℚ`.
* The filesystem is a list of existing file paths; directory creation and
  frame downloads are recorded as data (`ChannelRun`, `FrameRequest`,
  `MkAction`) rather than performed.
-/

namespace Helio

/-- A wavelength entry of the `wavelength` list: Python permits ints and strs. -/
inductive WVal where
  | int (n : Int)
  | str (s : String)
deriving DecidableEq

/-- Decimal digits of a natural number, most significant first (fuel-driven so
that it reduces in the kernel). -/
def decReprAux : Nat → Nat → List Char
  | 0, _ => []
  | fuel + 1, n =>
    if n < 10 then [Char.ofNat (48 + n)]
    else decReprAux fuel (n / 10) ++ [Char.ofNat (48 + n % 10)]

/-- Decimal representation of a natural number, as Python's `str`. -/
def decRepr (n : Nat) : String := String.mk (decReprAux (n + 1) n)

/-- Python's `str` on an `int`. -/
def intRepr (n : Int) : String :=
  if n < 0 then "-" ++ decRepr n.natAbs else decRepr n.natAbs

/-- Python's `str(wv)` for a wavelength entry. -/
def wvStr : WVal → String
  | .int n => intRepr n
  | .str s => s

/-- Split a character list at every occurrence of `c` (Python `str.split(c)`). -/
def splitOnAuxL (c : Char) : List Char → List Char → List (List Char)
  | [], acc => [acc.reverse]
  | x :: xs, acc =>
    if x = c then acc.reverse :: splitOnAuxL c xs []
    else splitOnAuxL c xs (x :: acc)

/-- Split a string at every occurrence of the character `c`, keeping empty
pieces, exactly as Python's `str.split` with an explicit separator. -/
def splitOnC (c : Char) (s : String) : List String :=
  (splitOnAuxL c s.toList []).map String.mk

/-- Parse a nonempty all-digit character list as a natural number. -/
def digitsToNat : List Char → Option Nat
  | [] => none
  | l => l.foldlM (fun acc c => if c.isDigit then some (acc * 10 + (c.toNat - 48)) else none) 0

/-- Parse a string as a nonnegative decimal integer. -/
def strToNat (s : String) : Option Nat := digitsToNat s.toList

/-- A civil (timezone-naive) timestamp at second resolution. -/
structure CivilDT where
  year : Nat
  month : Nat
  day : Nat
  hour : Nat
  minute : Nat
  second : Nat
deriving DecidableEq

/-- Day number of a civil date (proleptic Gregorian, standard
days-from-civil algorithm); the epoch constant is irrelevant because only
differences and residues mod 60/86400 matter. -/
def daysFromCivil (y m d : Nat) : Nat :=
  let yy := if m ≤ 2 then y - 1 else y
  let era := yy / 400
  let yoe := yy - era * 400
  let mp := (m + 9) % 12
  let doy := (153 * mp + 2) / 5 + (d - 1)
  let doe := yoe * 365 + yoe / 4 - yoe / 100 + doy
  era * 146097 + doe

/-- Absolute second count of a civil timestamp (exact 86400-second days, as in
Python's naive `datetime`). -/
def dtToSeconds (t : CivilDT) : Nat :=
  daysFromCivil t.year t.month t.day * 86400 + t.hour * 3600 + t.minute * 60 + t.second

/-- Embedding of `datetime.strptime(s, "%Y/%m/%d %H:%M:%S")`: returns `none`
where the Python call raises `ValueError`. -/
def parseDT (s : String) : Option CivilDT :=
  match splitOnC ' ' s with
  | [date, time] =>
    match splitOnC '/' date, splitOnC ':' time with
    | [ys, ms, ds], [hs, mis, ss] =>
      match strToNat ys, strToNat ms, strToNat ds, strToNat hs, strToNat mis, strToNat ss with
      | some y, some mo, some d, some h, some mi, some sec =>
        if 1 ≤ y ∧ 1 ≤ mo ∧ mo ≤ 12 ∧ 1 ≤ d ∧ d ≤ 31 ∧ h ≤ 23 ∧ mi ≤ 59 ∧ sec ≤ 59 then
          some ⟨y, mo, d, h, mi, sec⟩
        else none
      | _, _, _, _, _, _ => none
    | _, _ => none
  | _ => none

/-- Zero-padded two-digit decimal field (strftime `%m`, `%d`, `%H`, `%M`, `%S`). -/
def pad2 (n : Nat) : String :=
  if n < 10 then "0" ++ decRepr n else decRepr n

/-- Zero-padded four-digit decimal field (strftime `%Y`). -/
def pad4 (n : Nat) : String :=
  if n < 10 then "000" ++ decRepr n
  else if n < 100 then "00" ++ decRepr n
  else if n < 1000 then "0" ++ decRepr n
  else decRepr n

/-- strftime `"%Y_%m_%d_%H_%M_%S_"` (the `endstr` of `get_png`). -/
def fmtUnderscore (t : CivilDT) : String :=
  pad4 t.year ++ "_" ++ pad2 t.month ++ "_" ++ pad2 t.day ++ "_" ++
    pad2 t.hour ++ "_" ++ pad2 t.minute ++ "_" ++ pad2 t.second ++ "_"

/-- strftime `"%Y_%m_%d_%H%M"` (one half of `mk_movie`'s `dtname`). -/
def fmtCompact (t : CivilDT) : String :=
  pad4 t.year ++ "_" ++ pad2 t.month ++ "_" ++ pad2 t.day ++ "_" ++
    pad2 t.hour ++ pad2 t.minute

/-- Append a trailing slash unless already present
(the `basedir[-1] == '/'` check). -/
def ensureSlash (dir : String) : String :=
  if dir.toList.getLast? = some '/' then dir else dir ++ "/"

/-- Python `s.split(' ')[0]` as used for the date subdirectory. -/
def firstField (s : String) : String := (splitOnC ' ' s).headD ""

/-- Pixel-to-arcsecond scale factor `arcperpx` of `get_png`. -/
def arcperpx : ℚ := 0.600714

/-- The pixel-to-angle conversion `(c - 600) * arcperpx * 4096 / 1200` applied
to `xcenter` and `ycenter` at the top of `get_png`. -/
def pxToArcsec (c : ℚ) : ℚ := (c - 600) * arcperpx * 4096 / 1200

/-- Differential-rotation coefficient `A` of `get_png`. -/
def coeffA : ℚ := 14.713

/-- Differential-rotation coefficient `B` of `get_png`. -/
def coeffB : ℚ := -2.396

/-- Differential-rotation coefficient `C` of `get_png`. -/
def coeffC : ℚ := -1.787

/-- `xoffsetdegperday = A + B*sin(lat/60)**2 + C*sin(lat/60)**4`; the sine
function of numpy is the abstract parameter `sinf`. -/
def xoffsetdegperday (sinf : ℚ → ℚ) (lat : ℚ) : ℚ :=
  coeffA + coeffB * (sinf (lat / 60)) ^ 2 + coeffC * (sinf (lat / 60)) ^ 4

/-- `rotdays = 180 / xoffsetdegperday`. -/
def rotdays (sinf : ℚ → ℚ) (lat : ℚ) : ℚ := 180 / xoffsetdegperday sinf lat

/-- `xoffset = 2460 / rotdays / 2 / 3600`, the arcsec advance per 12-second
cadence step, computed once per `get_png` run. -/
def perStepDelta (sinf : ℚ → ℚ) (lat : ℚ) : ℚ :=
  2460 / rotdays sinf lat / 2 / 3600

/-- `hv.download_png(t, 0.6, layer, x0=…, y0=…, width=…, height=…, …)`,
recorded as data; `t` is the instant in absolute seconds. -/
structure FrameRequest where
  t : Nat
  imageScale : ℚ
  layer : String
  x0 : ℚ
  y0 : ℚ
  width : Nat
  height : Nat
deriving DecidableEq

/-- The layer query string chosen per wavelength at the `wv == 'hmi'` branch of
the download call. -/
def queryString (wv : WVal) : String :=
  if wv = .str ("hmi") then "[SDO,HMI,HMI,magnetogram,1,100]"
  else "[SDO,AIA,AIA," ++ wvStr wv ++ ",1,100]"

/-- The instants `rrule(SECONDLY, dtstart=s, until=e)` iterates over, as
absolute seconds: `s, s+1, …, e` (both ends inclusive; empty when `e < s`). -/
def secondsFrom (s n : Nat) : List Nat := (List.range n).map (fun i => s + i)

/-- One-second-resolution instant list of the inclusive window `[s, e]`. -/
def secondsList (s e : Nat) : List Nat := secondsFrom s (e + 1 - s)

/-- The inner download loop of `get_png`: for each instant whose civil
seconds-field (`t % 60`) is a multiple of 12, advance the running x-offset by
`delta` and emit one request at the advanced offset. -/
def dlLoop (wv : WVal) (delta y0 : ℚ) (w h : Nat) : List Nat → ℚ → List FrameRequest
  | [], _ => []
  | t :: ts, x =>
    if t % 60 % 12 = 0 then
      ⟨t, 0.6, queryString wv, x + delta, y0, w, h⟩ :: dlLoop wv delta y0 w h ts (x + delta)
    else
      dlLoop wv delta y0 w h ts x

/-- Requests emitted for one channel whose effective window starts at `s`. -/
def channelRequests (wv : WVal) (delta y0 : ℚ) (w h : Nat) (s e : Nat) (x : ℚ) :
    List FrameRequest :=
  dlLoop wv delta y0 w h (secondsList s e) x

/-- The terminal AIA-tagged filename `{path}{endstr}AIA_{wv}.png` probed by the
skip check. -/
def aiaName (dir endstr : String) (wv : WVal) : String :=
  dir ++ endstr ++ "AIA_" ++ wvStr wv ++ ".png"

/-- The terminal HMI-tagged filename `{path}{endstr}HMI_Mag.png` probed by the
skip check. -/
def hmiName (dir endstr : String) : String :=
  dir ++ endstr ++ "HMI_Mag.png"

/-- Record of one iteration of `get_png`'s per-wavelength loop: the directory
ensured to exist (created before the skip check), whether the channel was
skipped, and the emitted frame requests (empty when skipped). -/
structure ChannelRun where
  wv : WVal
  dir : String
  skipped : Bool
  requests : List FrameRequest
deriving DecidableEq

/-- Placeholder run used only to select elements of concrete run lists. -/
def noRun : ChannelRun := ⟨.int 0, "", true, []⟩

/-- The per-wavelength loop of `get_png`. State threaded exactly as in the
source: the skip-`continue` fires before the resume cursor is consumed, so a
skipped channel leaves `(skipdays, skiphours)` for the next channel, while a
non-skipped channel zeroes them for the rest of the run; the running x-offset
restarts from `x0` (the converted `xcenterinit`) on every iteration. -/
def runChannels (baseSub endstr : String) (fs : List String) (startS endS : Nat)
    (x0 y0 delta : ℚ) (w h : Nat) :
    List WVal → Nat → Nat → List ChannelRun
  | [], _, _ => []
  | wv :: rest, sd, sh =>
    let dir := baseSub ++ wvStr wv ++ "/"
    if aiaName dir endstr wv ∈ fs ∨ hmiName dir endstr ∈ fs then
      ⟨wv, dir, true, []⟩ ::
        runChannels baseSub endstr fs startS endS x0 y0 delta w h rest sd sh
    else
      ⟨wv, dir, false,
        channelRequests wv delta y0 w h (startS + sd * 86400 + sh * 3600) endS
          (x0 + (((sd * 24 + sh) * 300 : Nat) : ℚ) * delta)⟩ ::
        runChannels baseSub endstr fs startS endS x0 y0 delta w h rest 0 0

/-- Embedding of `get_png`. The astropy latitude derivation and numpy's sine
are external collaborators, taken as the parameters `lat` and `sinf`; `fs` is
the set of files already on disk. Returns `none` where `strptime` raises. -/
def getPng (start endT : String) (wavelength : List WVal) (basedir : String)
    (xcenter ycenter : ℚ) (width height : Nat) (skipdays skiphours : Nat)
    (fs : List String) (sinf : ℚ → ℚ) (lat : ℚ) : Option (List ChannelRun) :=
  match parseDT start, parseDT endT with
  | some sdt, some edt =>
    let xc := pxToArcsec xcenter
    let yc := pxToArcsec ycenter
    let endstr := fmtUnderscore edt
    let bd := ensureSlash basedir
    let subdir := firstField start ++ "/"
    let delta := perStepDelta sinf lat
    some (runChannels (bd ++ subdir) endstr fs (dtToSeconds sdt) (dtToSeconds edt)
      xc yc delta width height wavelength skipdays skiphours)
  | _, _ => none

/-- Convenience accessor: the channel runs of a `get_png` result (empty list
when parsing failed). -/
def runsOf (o : Option (List ChannelRun)) : List ChannelRun := o.getD []

/-- First multiple of 12 at or after `s`. -/
def align12 (s : Nat) : Nat := ((s + 11) / 12) * 12

/-- Number of cadence-aligned instants among `s, s + 1, …, s + n - 1`. -/
def cnt12 : Nat → Nat → Nat
  | _, 0 => 0
  | s, n + 1 => (if s % 60 % 12 = 0 then 1 else 0) + cnt12 (s + 1) n

/-- One recorded effect of `mk_movie`: the `os.makedirs` call, one per-channel
encoder invocation, or the compositing encoder invocation.  A `composite`
action carries the `-i` input files in command order and the filter graph as
its list of vstack input-index groups (the groups are hstacked left to
right). -/
inductive MkAction where
  | mkdirIndividual (dir : String)
  | encode (wv : WVal) (srcGlob : String) (outFile : String)
  | composite (inputs : List String) (vgroups : List (List Nat)) (outFile : String)
deriving DecidableEq

/-- The vstack groups of the 3x3 filter graph
`[0:v][1:v][2:v]vstack…[col0];[3:v][4:v][5:v]vstack…[col1];[6:v][7:v][8:v]vstack…[col2];[col0][col1][col2]hstack…`. -/
def groups3x3 : List (List Nat) := [[0, 1, 2], [3, 4, 5], [6, 7, 8]]

/-- The vstack groups of the 2x2 filter graph
`[0:v][1:v]vstack…[col0];[2:v][3:v]vstack…[col1];[col0][col1]hstack…`. -/
def groups2x2 : List (List Nat) := [[0, 1], [2, 3]]

/-- ffmpeg `vstack` semantics on single tiles: the inputs are stacked
vertically, first input on top, giving a one-tile-wide grid. -/
def vstackTiles (g : List Nat) : List (List Nat) := g.map (fun i => [i])

/-- ffmpeg `hstack` semantics: two grids side by side, first on the left. -/
def hstack2 (a b : List (List Nat)) : List (List Nat) := a.zipWith (· ++ ·) b

/-- Grid produced by vstacking each group and hstacking the results, as rows
from top to bottom, each row listing input indices from left to right. -/
def gridOfGroups (gs : List (List Nat)) : List (List Nat) :=
  match gs.map vstackTiles with
  | [] => []
  | g :: rest => rest.foldl hstack2 g

/-- The per-channel movie file `{outdir}individual/aia{wv}movie[_timestamp].mp4`. -/
def movieFile (outdir : String) (wv : WVal) (stamped : Bool) : String :=
  if stamped then outdir ++ "individual/aia" ++ wvStr wv ++ "movie_timestamp.mp4"
  else outdir ++ "individual/aia" ++ wvStr wv ++ "movie.mp4"

/-- Whether `mk_movie` reads this channel's frames from the `-timestamped`
sibling directory (`str(wv) == wavestamp and timestamp`). -/
def usesStamped (wv : WVal) (wavestamp : String) (timestampFlag : Bool) : Bool :=
  wvStr wv = wavestamp && timestampFlag

/-- Embedding of `mk_movie`.  Returns the ordered effect trace (directory
creation, per-channel encodes, optional composite) on success; `Except.error`
models a raised exception, before which nothing was invoked or written: the
wavelength-length validation precedes the `os.makedirs` call and every
subprocess invocation in the source. -/
def mkMovie (start endT : String) (wavelength : List WVal) (basedir outdir : String)
    (timestampFlag : Bool) (wavestamp : String) (mode : String) :
    Except String (List MkAction) :=
  match parseDT start, parseDT endT with
  | some sdt, some edt =>
    let dtname := fmtCompact sdt ++ "-" ++ fmtCompact edt
    let bd := ensureSlash basedir
    let od0 := ensureSlash outdir
    if mode = "3x3" ∧ ¬ wavelength.length = 9 then
      Except.error ("Wavelength array must be exactly 9 long")
    else if mode = "2x2" ∧ ¬ wavelength.length = 4 then
      Except.error ("Wavelength array must be exactly 4 long")
    else
      let od := od0 ++ dtname ++ "/"
      let subdir := firstField start ++ "/"
      let encodes := wavelength.map (fun wv =>
        if usesStamped wv wavestamp timestampFlag then
          MkAction.encode wv (bd ++ subdir ++ wvStr wv ++ "-timestamped/*.png")
            (movieFile od wv true)
        else
          MkAction.encode wv (bd ++ subdir ++ wvStr wv ++ "/*.png")
            (movieFile od wv false))
      let inputs := wavelength.map (fun wv =>
        movieFile od wv (usesStamped wv wavestamp timestampFlag))
      let base := MkAction.mkdirIndividual (od ++ "individual/") :: encodes
      if mode = "3x3" then
        Except.ok (base ++
          [MkAction.composite inputs groups3x3 (od ++ "aiapanel_" ++ mode ++ "_movie.mp4")])
      else if mode = "2x2" then
        Except.ok (base ++
          [MkAction.composite inputs groups2x2 (od ++ "aiapanel_" ++ mode ++ "_movie.mp4")])
      else
        Except.ok base
  | _, _ => Except.error ("strptime")

/-- Whether an effect trace contains a compositing invocation. -/
def hasComposite : List MkAction → Bool
  | [] => false
  | .composite _ _ _ :: _ => true
  | _ :: rest => hasComposite rest

/-- Number of per-channel encoder invocations in an effect trace. -/
def encodeCount : List MkAction → Nat
  | [] => 0
  | .encode _ _ _ :: rest => encodeCount rest + 1
  | _ :: rest => encodeCount rest

/-- Whether a result is a raised exception. -/
def raised {alpha : Type} : Except String alpha → Bool
  | .error _ => true
  | .ok _ => false

/-- The vstack groups of the composite action of a trace ( `[]` if none). -/
def compositeGroupsOf : List MkAction → List (List Nat)
  | [] => []
  | .composite _ g _ :: _ => g
  | _ :: rest => compositeGroupsOf rest

/-- The input file list of the composite action of a trace ( `[]` if none). -/
def compositeInputsOf : List MkAction → List String
  | [] => []
  | .composite ins _ _ :: _ => ins
  | _ :: rest => compositeInputsOf rest

/-- The effect trace of a `mk_movie` result (empty on error). -/
def actionsOf (r : Except String (List MkAction)) : List MkAction :=
  match r with
  | .ok acts => acts
  | .error _ => []

/-- Timestamp text derived from a frame filename by `timestamp()`:
`fn.split('.')[0].split('_')` must have at least six fields (else Python
raises `IndexError`, modelled as `none`), and the text is
`ts[0]/ts[1]/ts[2]   ts[3]:ts[4]:ts[5]` with no validation of the fields. -/
def stampText (fn : String) : Option String :=
  let ts := splitOnC '_' ((splitOnC '.' fn).headD "")
  match ts[0]?, ts[1]?, ts[2]?, ts[3]?, ts[4]?, ts[5]? with
  | some y, some mo, some d, some h, some mi, some s =>
    some (y ++ "/" ++ mo ++ "/" ++ d ++ "   " ++ h ++ ":" ++ mi ++ ":" ++ s)
  | _, _, _, _, _, _ => none

/-- One annotated output frame: destination path, overlay text, and the
`draw.text` anchor `(20, height - 50)` near the bottom-left corner. -/
structure StampOut where
  dest : String
  text : String
  posX : Nat
  posY : Int
deriving DecidableEq

instance {eps alpha : Type} [DecidableEq eps] [DecidableEq alpha] :
    DecidableEq (Except eps alpha) := fun a b =>
  match a, b with
  | .ok x, .ok y => decidable_of_iff (x = y) (by simp)
  | .error x, .error y => decidable_of_iff (x = y) (by simp)
  | .ok _, .error _ => isFalse (by simp)
  | .error _, .ok _ => isFalse (by simp)

/-- Per-file processing of `timestamp()` over a directory listing: each frame
is annotated and saved under the same filename into `destDir`, overwriting
unconditionally (no existence check occurs in the source); the first filename
whose stem has fewer than six underscore-separated fields raises. `heightOf`
abstracts each image's pixel height (`im.size[1]`). -/
def stampFiles (destDir : String) (heightOf : String → Nat) :
    List String → Except String (List StampOut)
  | [] => Except.ok []
  | fn :: rest =>
    match stampText fn with
    | none => Except.error fn
    | some txt =>
      match stampFiles destDir heightOf rest with
      | Except.error e => Except.error e
      | Except.ok outs =>
        Except.ok (⟨destDir ++ fn, txt, 20, (heightOf fn : Int) - 50⟩ :: outs)

/-- Embedding of `timestamp()`: annotates every file of the channel directory
`{basedir}{date}/{wavestamp}/` into the sibling `-timestamped` directory. -/
def timestampStage (start basedir wavestamp : String) (heightOf : String → Nat)
    (files : List String) : Except String (List StampOut) :=
  let bd := ensureSlash basedir
  let subdir := firstField start ++ "/"
  stampFiles (bd ++ subdir ++ wavestamp ++ "-timestamped/") heightOf files

/-- Concrete scenario: the default start instant of the source. -/
def demoStart : String := "2015/01/17 07:00:00"

/-- Concrete scenario: a 24-second window end. -/
def demoEnd24 : String := "2015/01/17 07:00:24"

/-- Concrete scenario: the default end instant of the source. -/
def demoEndLong : String := "2015/01/17 08:30:00"

/-- Concrete scenario: a base directory. -/
def demoBase : String := "/d/"

/-- Concrete stand-in for the external sine when evaluating scenarios. -/
def zeroSin : ℚ → ℚ := fun _ => 0

/-- The source's default nine-channel wavelength list. -/
def nineChannels : List WVal :=
  [.int 94, .int 131, .int 171, .int 193, .int 211, .int 304, .int 335, .int 1600,
    .str ("hmi")]

/-- The default list with its last channel removed (eight channels). -/
def eightChannels : List WVal :=
  [.int 94, .int 131, .int 171, .int 193, .int 211, .int 304, .int 335, .int 1600]

/-- Concrete 3x3 assembly invocation. -/
def demoMovie3x3 : Except String (List MkAction) :=
  mkMovie demoStart demoEndLong nineChannels ("/data/") ("/out/") true ("171") ("3x3")

/-- Concrete single-channel acquisition over the 24-second window. -/
def demoRuns : List ChannelRun :=
  runsOf (getPng demoStart demoEnd24 [WVal.int 171] demoBase 941.39 746.31 650 400 0 0 []
    zeroSin 0)

/-- Concrete two-channel acquisition over the 24-second window. -/
def demoPairRuns : List ChannelRun :=
  runsOf (getPng demoStart demoEnd24 [WVal.int 171, WVal.int 304] demoBase 941.39 746.31
    650 400 0 0 [] zeroSin 0)

/-- Concrete single-channel acquisition resumed with cursor (0 days, 1 hour). -/
def demoResumeRuns : List ChannelRun :=
  runsOf (getPng demoStart demoEnd24 [WVal.int 171] demoBase 941.39 746.31 650 400 0 1 []
    zeroSin 0)

/-- A stray HMI-tagged terminal file sitting in the 171 channel directory. -/
def strayHmiFile : String := "/d/2015/01/17/171/2015_01_17_07_00_24_HMI_Mag.png"

/-- Concrete acquisition with the stray HMI-tagged file on disk. -/
def demoSkipRuns : List ChannelRun :=
  runsOf (getPng demoStart demoEnd24 [WVal.int 171] demoBase 941.39 746.31 650 400 0 0
    [strayHmiFile] zeroSin 0)

/-- Parsed form of `demoStart`. -/
def demoStartDT : CivilDT := ⟨2015, 1, 17, 7, 0, 0⟩

/-- Parsed form of `demoEnd24`. -/
def demoEnd24DT : CivilDT := ⟨2015, 1, 17, 7, 0, 24⟩

/-- Parsed form of `demoEndLong`. -/
def demoEndLongDT : CivilDT := ⟨2015, 1, 17, 8, 30, 0⟩

theorem secondMod12 (s : Nat) : s % 60 % 12 = s % 12 :=
  Nat.mod_mod_of_dvd s (by norm_num)

theorem cnt12_eq : ∀ n s, cnt12 s n = (s + n + 11) / 12 - (s + 11) / 12 := by
  intro n
  induction n with
  | zero => intro s; simp [cnt12]
  | succ n ih =>
    intro s
    rw [show cnt12 s (n + 1) = (if s % 60 % 12 = 0 then 1 else 0) + cnt12 (s + 1) n from rfl,
      ih (s + 1), secondMod12]
    split
    · omega
    · omega

/-- Inclusive-window cadence count expressed with the window bounds. -/
theorem cnt12_window (s e : Nat) : cnt12 s (e + 1 - s) = e / 12 + 1 - (s + 11) / 12 := by
  rw [cnt12_eq]
  omega

theorem secondsFrom_succ (s n : Nat) :
    secondsFrom s (n + 1) = s :: secondsFrom (s + 1) n := by
  show (List.range (n + 1)).map (fun i => s + i) =
    s :: (List.range n).map (fun i => s + 1 + i)
  rw [List.range_succ_eq_map, List.map_cons, List.map_map]
  refine congrArg₂ List.cons (by omega) ?_
  exact List.map_congr_left (fun i _ => by simp only [Function.comp_apply]; omega)

/-- Closed form of the download loop over a window of `n` seconds starting at
`s`: one request per aligned instant, the i-th at instant `align12 s + 12 i`
with x-offset `x + (i + 1) · delta`. -/
theorem dlLoop_closed (wv : WVal) (delta y0 : ℚ) (w h : Nat) :
    ∀ (n s : Nat) (x : ℚ),
    dlLoop wv delta y0 w h (secondsFrom s n) x =
      (List.range (cnt12 s n)).map
        (fun i => ⟨align12 s + 12 * i, 0.6, queryString wv,
          x + ((i : ℚ) + 1) * delta, y0, w, h⟩) := by
  intro n
  induction n with
  | zero => intro s x; simp [secondsFrom, cnt12, dlLoop]
  | succ n ih =>
    intro s x
    rw [secondsFrom_succ]
    by_cases hc : s % 60 % 12 = 0
    · have h12 : s % 12 = 0 := by rwa [secondMod12] at hc
      rw [show dlLoop wv delta y0 w h (s :: secondsFrom (s + 1) n) x =
          ⟨s, 0.6, queryString wv, x + delta, y0, w, h⟩ ::
            dlLoop wv delta y0 w h (secondsFrom (s + 1) n) (x + delta) by
        simp [dlLoop, hc]]
      rw [ih (s + 1) (x + delta)]
      have hcnt : cnt12 s (n + 1) = cnt12 (s + 1) n + 1 := by
        rw [show cnt12 s (n + 1) = (if s % 60 % 12 = 0 then 1 else 0) + cnt12 (s + 1) n
          from rfl]
        simp only [hc, if_pos]
        omega
      rw [hcnt, List.range_succ_eq_map, List.map_cons, List.map_map]
      refine congrArg₂ List.cons ?_ ?_
      · have ha : align12 s = s := by unfold align12; omega
        simp only [FrameRequest.mk.injEq, and_true, true_and]
        refine ⟨by omega, by push_cast; ring⟩
      · refine (List.map_congr_left (fun i _ => ?_)).symm
        have ha : align12 (s + 1) = s + 12 := by unfold align12; omega
        have ha0 : align12 s = s := by unfold align12; omega
        simp only [Function.comp_apply, FrameRequest.mk.injEq, and_true, true_and]
        refine ⟨by omega, by push_cast; ring⟩
    · have h12 : s % 12 ≠ 0 := by rwa [secondMod12] at hc
      rw [show dlLoop wv delta y0 w h (s :: secondsFrom (s + 1) n) x =
          dlLoop wv delta y0 w h (secondsFrom (s + 1) n) x by simp [dlLoop, hc]]
      rw [ih (s + 1) x]
      have hcnt : cnt12 s (n + 1) = cnt12 (s + 1) n := by
        rw [show cnt12 s (n + 1) = (if s % 60 % 12 = 0 then 1 else 0) + cnt12 (s + 1) n
          from rfl]
        simp [hc]
      have ha : align12 (s + 1) = align12 s := by unfold align12; omega
      rw [hcnt, ha]

/-- Closed form of one channel's request list. -/
theorem channelRequests_closed (wv : WVal) (delta y0 : ℚ) (w h s e : Nat) (x : ℚ) :
    channelRequests wv delta y0 w h s e x =
      (List.range (cnt12 s (e + 1 - s))).map
        (fun i => ⟨align12 s + 12 * i, 0.6, queryString wv,
          x + ((i : ℚ) + 1) * delta, y0, w, h⟩) :=
  dlLoop_closed wv delta y0 w h (e + 1 - s) s x

/-- A channel's request count over the inclusive window `[s, e]`. -/
theorem channelRequests_length (wv : WVal) (delta y0 : ℚ) (w h s e : Nat) (x : ℚ) :
    (channelRequests wv delta y0 w h s e x).length = e / 12 + 1 - (s + 11) / 12 := by
  rw [channelRequests_closed]
  simp [cnt12_window]

/-- Applying the resume cursor `(sd, sh)` to a channel run produces exactly the
uninterrupted run with its first `(sd·24 + sh)·300` requests discarded. -/
theorem channelRequests_resume (wv : WVal) (delta y0 : ℚ) (w h : Nat)
    (S E : Nat) (x0 : ℚ) (sd sh : Nat) :
    channelRequests wv delta y0 w h (S + sd * 86400 + sh * 3600) E
        (x0 + (((sd * 24 + sh) * 300 : Nat) : ℚ) * delta) =
      (channelRequests wv delta y0 w h S E x0).drop ((sd * 24 + sh) * 300) := by
  rw [channelRequests_closed, channelRequests_closed]
  apply List.ext_getElem
  · simp only [List.length_map, List.length_range, List.length_drop, cnt12_eq]
    omega
  · intro i h1 h2
    simp only [List.getElem_drop, List.getElem_map, List.getElem_range,
      FrameRequest.mk.injEq, and_true, true_and]
    refine ⟨by unfold align12; omega, by push_cast; ring⟩

/-- Characterization of every iteration record of `get_png`'s channel loop:
the directory string, the skip condition (both candidate terminal filenames),
emptiness of a skipped channel's requests, and the effective window and
starting offset of a non-skipped channel (cursor either still pending or
already consumed). -/
theorem runChannels_mem (baseSub endstr : String) (fs : List String)
    (startS endS : Nat) (x0 y0 delta : ℚ) (w h : Nat) :
    ∀ (ws : List WVal) (sd sh : Nat) (r : ChannelRun),
      r ∈ runChannels baseSub endstr fs startS endS x0 y0 delta w h ws sd sh →
      r.dir = baseSub ++ wvStr r.wv ++ "/" ∧
      (r.skipped = true ↔ (aiaName r.dir endstr r.wv ∈ fs ∨ hmiName r.dir endstr ∈ fs)) ∧
      (r.skipped = true → r.requests = []) ∧
      (r.skipped = false →
        ∃ a b : Nat, ((a, b) = (sd, sh) ∨ (a, b) = (0, 0)) ∧
          r.requests = channelRequests r.wv delta y0 w h (startS + a * 86400 + b * 3600) endS
            (x0 + (((a * 24 + b) * 300 : Nat) : ℚ) * delta)) := by
  intro ws
  induction ws with
  | nil => intro sd sh r hr; simp [runChannels] at hr
  | cons wv rest ih =>
    intro sd sh r hr
    simp only [runChannels] at hr
    by_cases hskip : aiaName (baseSub ++ wvStr wv ++ "/") endstr wv ∈ fs ∨
        hmiName (baseSub ++ wvStr wv ++ "/") endstr ∈ fs
    · rw [if_pos hskip] at hr
      rcases List.mem_cons.1 hr with h | h
      · subst h
        exact ⟨rfl, by simpa using hskip, fun _ => rfl, by intro hfalse; simp at hfalse⟩
      · exact ih sd sh r h
    · rw [if_neg hskip] at hr
      rcases List.mem_cons.1 hr with h | h
      · subst h
        exact ⟨rfl, by simpa using hskip, by intro habs; simp at habs,
          fun _ => ⟨sd, sh, Or.inl rfl, rfl⟩⟩
      · obtain ⟨hdir, hiff, hemp, hns⟩ := ih 0 0 r h
        refine ⟨hdir, hiff, hemp, fun hn => ?_⟩
        obtain ⟨a, b, hab, hreq⟩ := hns hn
        exact ⟨a, b, Or.inr (hab.elim id id), hreq⟩

/-- With `|sin(lat/60)| ≤ 1` (true of any real sine) the daily rotation rate
is positive: it is at least `A + B + C = 10.53` degrees per day. -/
theorem xoffsetdegperday_pos (sinf : ℚ → ℚ) (lat : ℚ)
    (hs : |sinf (lat / 60)| ≤ 1) : 0 < xoffsetdegperday sinf lat := by
  obtain ⟨hl, hr⟩ := abs_le.1 hs
  have h2 : (sinf (lat / 60)) ^ 2 ≤ 1 := by nlinarith
  have h4 : (sinf (lat / 60)) ^ 4 ≤ 1 := by nlinarith
  unfold xoffsetdegperday coeffA coeffB coeffC
  nlinarith

/-- With `|sin(lat/60)| ≤ 1` the per-step delta is strictly positive. -/
theorem perStepDelta_pos (sinf : ℚ → ℚ) (lat : ℚ)
    (hs : |sinf (lat / 60)| ≤ 1) : 0 < perStepDelta sinf lat := by
  have hrate := xoffsetdegperday_pos sinf lat hs
  have h180 : 0 < rotdays sinf lat := by
    unfold rotdays
    exact div_pos (by norm_num) hrate
  unfold perStepDelta
  exact div_pos (div_pos (div_pos (by norm_num) h180) (by norm_num)) (by norm_num)

/-- When both time strings parse, `get_png` returns its channel loop's
records. -/
theorem getPng_parsed (start endT : String) (wl : List WVal) (bd : String)
    (xc yc : ℚ) (w h sd sh : Nat) (fs : List String) (sinf : ℚ → ℚ) (lat : ℚ)
    (sdt edt : CivilDT) (hs : parseDT start = some sdt) (he : parseDT endT = some edt) :
    getPng start endT wl bd xc yc w h sd sh fs sinf lat =
      some (runChannels (ensureSlash bd ++ (firstField start ++ "/")) (fmtUnderscore edt)
        fs (dtToSeconds sdt) (dtToSeconds edt) (pxToArcsec xc) (pxToArcsec yc)
        (perStepDelta sinf lat) w h wl sd sh) := by
  unfold getPng
  rw [hs, he]

/-- Any member of a `get_png` result comes from the channel loop, with both
time strings parsed. -/
theorem runsOf_getPng_mem (start endT : String) (wl : List WVal) (bd : String)
    (xc yc : ℚ) (w h sd sh : Nat) (fs : List String) (sinf : ℚ → ℚ) (lat : ℚ)
    (r : ChannelRun)
    (hr : r ∈ runsOf (getPng start endT wl bd xc yc w h sd sh fs sinf lat)) :
    ∃ sdt edt, parseDT start = some sdt ∧ parseDT endT = some edt ∧
      r ∈ runChannels (ensureSlash bd ++ (firstField start ++ "/")) (fmtUnderscore edt)
        fs (dtToSeconds sdt) (dtToSeconds edt) (pxToArcsec xc) (pxToArcsec yc)
        (perStepDelta sinf lat) w h wl sd sh := by
  cases hps : parseDT start with
  | none => unfold runsOf getPng at hr; rw [hps] at hr; simp at hr
  | some sdt =>
    cases hpe : parseDT endT with
    | none => unfold runsOf getPng at hr; rw [hps, hpe] at hr; simp at hr
    | some edt =>
      rw [runsOf, getPng_parsed start endT wl bd xc yc w h sd sh fs sinf lat sdt edt hps hpe,
        Option.getD_some] at hr
      exact ⟨sdt, edt, rfl, rfl, hr⟩

/-- An AIA query string is never the HMI magnetogram query string (they differ
at their sixth character). -/
theorem aia_ne_hmi (s : String) :
    ¬ ("[SDO,AIA,AIA," ++ s ++ ",1,100]" = "[SDO,HMI,HMI,magnetogram,1,100]") := by
  intro h
  have hd : (("[SDO,AIA,AIA," ++ s ++ ",1,100]") : String).data =
      ("[SDO,HMI,HMI,magnetogram,1,100]" : String).data := congrArg String.data h
  rw [String.data_append, String.data_append, List.append_assoc] at hd
  have h13 := congrArg (fun l => List.take 13 l) hd
  simp only at h13
  rw [List.take_left' (by decide)] at h13
  exact absurd h13 (by decide)

/-- Composite-freeness of any list of actions built by an encode-producing
map. -/
theorem hasComposite_map_encode (F : WVal → MkAction)
    (hF : ∀ wv, ∃ a b c, F wv = .encode a b c) :
    ∀ wl : List WVal, hasComposite (wl.map F) = false := by
  intro wl
  induction wl with
  | nil => rfl
  | cons wv rest ih =>
    obtain ⟨a, b, c, hw⟩ := hF wv
    simp only [List.map_cons, hw]
    exact ih

/-- The per-channel encode map contributes one encode action per channel. -/
theorem encodeCount_map_encode (F : WVal → MkAction)
    (hF : ∀ wv, ∃ a b c, F wv = .encode a b c) :
    ∀ wl : List WVal, encodeCount (wl.map F) = wl.length := by
  intro wl
  induction wl with
  | nil => rfl
  | cons wv rest ih =>
    obtain ⟨a, b, c, hw⟩ := hF wv
    simp only [List.map_cons, hw, List.length_cons]
    rw [show encodeCount (MkAction.encode a b c :: rest.map F) = encodeCount (rest.map F) + 1
      from rfl, ih]

/-- Reading the composite groups past composite-free actions. -/
theorem compositeGroupsOf_append (acts rest : List MkAction)
    (h : hasComposite acts = false) :
    compositeGroupsOf (acts ++ rest) = compositeGroupsOf rest := by
  induction acts with
  | nil => rfl
  | cons a acts ih =>
    cases a with
    | mkdirIndividual d => exact ih (by simpa [hasComposite] using h)
    | encode x y z => exact ih (by simpa [hasComposite] using h)
    | composite x y z => simp [hasComposite] at h

/-- Reading the composite inputs past composite-free actions. -/
theorem compositeInputsOf_append (acts rest : List MkAction)
    (h : hasComposite acts = false) :
    compositeInputsOf (acts ++ rest) = compositeInputsOf rest := by
  induction acts with
  | nil => rfl
  | cons a acts ih =>
    cases a with
    | mkdirIndividual d => exact ih (by simpa [hasComposite] using h)
    | encode x y z => exact ih (by simpa [hasComposite] using h)
    | composite x y z => simp [hasComposite] at h

/-- An if-between-two-encodes always produces an encode action. -/
theorem ifEncode_shape (p : Prop) [Decidable p] (wv : WVal) (s1 o1 s2 o2 : String) :
    ∃ a b c, (if p then MkAction.encode wv s1 o1 else MkAction.encode wv s2 o2) =
      MkAction.encode a b c := by
  by_cases hp : p
  · exact ⟨wv, s1, o1, if_pos hp⟩
  · exact ⟨wv, s2, o2, if_neg hp⟩

/-- Claim C9: the HMI magnetogram query string is selected if and only if the
wavelength entry is the exact lowercase string hmi; every other entry —
including the strings HMI and Hmi and every integer — is interpolated via
str(w) into the AIA query string; and every emitted frame request carries its
channel's query string. -/
theorem c9_query_selection :
    (∀ wv : WVal,
      queryString wv = "[SDO,HMI,HMI,magnetogram,1,100]" ↔ wv = WVal.str ("hmi")) ∧
    (∀ wv : WVal, ¬ wv = WVal.str ("hmi") →
      queryString wv = "[SDO,AIA,AIA," ++ wvStr wv ++ ",1,100]") ∧
    (∀ (start endT : String) (wl : List WVal) (bd : String) (xc yc : ℚ)
      (w h sd sh : Nat) (fs : List String) (sinf : ℚ → ℚ) (lat : ℚ)
      (r : ChannelRun) (q : FrameRequest),
      r ∈ runsOf (getPng start endT wl bd xc yc w h sd sh fs sinf lat) →
      q ∈ r.requests → q.layer = queryString r.wv) := by
  refine ⟨?_, ?_, ?_⟩
  · intro wv
    constructor
    · intro h
      by_cases hw : wv = WVal.str ("hmi")
      · exact hw
      · rw [queryString, if_neg hw] at h
        exact absurd h (aia_ne_hmi (wvStr wv))
    · intro h
      rw [queryString, if_pos h]
  · intro wv h
    rw [queryString, if_neg h]
  · intro start endT wl bd xc yc w h sd sh fs sinf lat r q hr hq
    obtain ⟨sdt, edt, hps, hpe, hmem⟩ :=
      runsOf_getPng_mem start endT wl bd xc yc w h sd sh fs sinf lat r hr
    obtain ⟨hdir, hiff, hemp, hns⟩ :=
      runChannels_mem _ _ _ _ _ _ _ _ _ _ wl sd sh r hmem
    cases hsk : r.skipped with
    | true => rw [hemp hsk] at hq; simp at hq
    | false =>
      obtain ⟨a, b, hab, hreq⟩ := hns hsk
      rw [hreq, channelRequests_closed] at hq
      obtain ⟨i, hi, rfl⟩ := List.mem_map.1 hq
      rfl

/-- Witness for C9: concrete selections, including the case-sensitive
non-match HMI and an integer channel. -/
theorem c9_query_selection_witness :
    queryString (WVal.str ("HMI")) = "[SDO,AIA,AIA,HMI,1,100]" ∧
    queryString (WVal.int 171) = "[SDO,AIA,AIA,171,1,100]" ∧
    queryString (WVal.str ("hmi")) = "[SDO,HMI,HMI,magnetogram,1,100]" := by
  refine ⟨?_, ?_, ?_⟩
  · rw [c9_query_selection.2.1 (WVal.str ("HMI")) (by decide)]; decide
  · rw [c9_query_selection.2.1 (WVal.int 171) (by decide)]; decide
  · exact (c9_query_selection.1 (WVal.str ("hmi"))).mpr rfl

/-- Counterexample to C2 as stated: in the 3x3 composite the top row of the
grid is [0, 3, 6], not [0, 1, 2] — index 1 does not sit on the top row, so the
cell layout is not row-major. -/
theorem c2_stacking_counterexample :
    (gridOfGroups (compositeGroupsOf (actionsOf demoMovie3x3))).headD [] = [0, 3, 6] ∧
    ¬ gridOfGroups (compositeGroupsOf (actionsOf demoMovie3x3)) =
        [[0, 1, 2], [3, 4, 5], [6, 7, 8]] :=
  ⟨by decide, by decide⟩

/-- Claim C2 (amended): the 3x3 composite is column-major: the filter graph
stacks indices [0,1,2], [3,4,5], [6,7,8] as three vertical (column) stacks
joined by one horizontal stack, so indices 0-2 form the left column, 3-5 the
middle column, 6-8 the right column (index 0 top-left, index 8 bottom-right,
rows [0,3,6] / [1,4,7] / [2,5,8]); analogously 2x2 gives columns [0,1] and
[2,3]; the composite's encoder inputs are the per-channel movies in
channel-request order. -/
theorem c2_stacking (start endT : String) (wl : List WVal) (bd od : String)
    (tf : Bool) (ws : String) (sdt edt : CivilDT)
    (hs : parseDT start = some sdt) (he : parseDT endT = some edt) :
    (wl.length = 9 →
      compositeGroupsOf (actionsOf (mkMovie start endT wl bd od tf ws ("3x3"))) =
        groups3x3 ∧
      compositeInputsOf (actionsOf (mkMovie start endT wl bd od tf ws ("3x3"))) =
        wl.map (fun wv =>
          movieFile ((ensureSlash od ++ (fmtCompact sdt ++ "-" ++ fmtCompact edt)) ++ "/")
            wv (usesStamped wv ws tf))) ∧
    (wl.length = 4 →
      compositeGroupsOf (actionsOf (mkMovie start endT wl bd od tf ws ("2x2"))) =
        groups2x2) ∧
    gridOfGroups groups3x3 = [[0, 3, 6], [1, 4, 7], [2, 5, 8]] ∧
    gridOfGroups groups2x2 = [[0, 2], [1, 3]] := by
  refine ⟨fun h9 => ?_, fun h4 => ?_, by decide, by decide⟩
  · simp only [mkMovie, hs, he, h9]
    norm_num
    rw [if_neg (by decide : ¬ ("3x3" : String) = "2x2")]
    constructor
    · simp only [actionsOf, compositeGroupsOf]
      exact (compositeGroupsOf_append _ _ (hasComposite_map_encode _
        (fun wv => ifEncode_shape _ wv _ _ _ _) wl)).trans rfl
    · simp only [actionsOf, compositeInputsOf]
      exact (compositeInputsOf_append _ _ (hasComposite_map_encode _
        (fun wv => ifEncode_shape _ wv _ _ _ _) wl)).trans rfl
  · simp only [mkMovie, hs, he, h4]
    norm_num
    rw [if_neg (by decide : ¬ ("2x2" : String) = "3x3")]
    simp only [actionsOf, compositeGroupsOf]
    exact (compositeGroupsOf_append _ _ (hasComposite_map_encode _
      (fun wv => ifEncode_shape _ wv _ _ _ _) wl)).trans rfl

/-- Witness for C2 (amended), at the source's default nine-channel call. -/
theorem c2_stacking_witness :
    compositeGroupsOf (actionsOf demoMovie3x3) = groups3x3 ∧
    gridOfGroups groups3x3 = [[0, 3, 6], [1, 4, 7], [2, 5, 8]] ∧
    gridOfGroups groups2x2 = [[0, 2], [1, 3]] :=
  ⟨((c2_stacking demoStart demoEndLong nineChannels ("/data/") ("/out/") true ("171")
      demoStartDT demoEndLongDT (by decide) (by decide)).1 (by decide)).1,
    (c2_stacking demoStart demoEndLong nineChannels ("/data/") ("/out/") true ("171")
      demoStartDT demoEndLongDT (by decide) (by decide)).2.2.1,
    (c2_stacking demoStart demoEndLong nineChannels ("/data/") ("/out/") true ("171")
      demoStartDT demoEndLongDT (by decide) (by decide)).2.2.2⟩

/-- Claim C5: mode 3x3 with a wavelength list whose length is not 9 raises
before any encoder invocation or filesystem write (the error result carries no
actions), likewise 2x2 with length not 4; with exactly 9 (resp. 4) channels
validation succeeds; any other mode raises no length error, performs one
encode per channel and no compositing. -/
theorem c5_mode_validation (start endT : String) (wl : List WVal) (bd od : String)
    (tf : Bool) (ws mode : String) :
    (mode = "3x3" → ¬ wl.length = 9 →
      raised (mkMovie start endT wl bd od tf ws mode) = true) ∧
    (mode = "2x2" → ¬ wl.length = 4 →
      raised (mkMovie start endT wl bd od tf ws mode) = true) ∧
    (∀ sdt edt : CivilDT, parseDT start = some sdt → parseDT endT = some edt →
      (mode = "3x3" → wl.length = 9 →
        raised (mkMovie start endT wl bd od tf ws mode) = false) ∧
      (mode = "2x2" → wl.length = 4 →
        raised (mkMovie start endT wl bd od tf ws mode) = false) ∧
      (¬ mode = "3x3" → ¬ mode = "2x2" →
        raised (mkMovie start endT wl bd od tf ws mode) = false ∧
        hasComposite (actionsOf (mkMovie start endT wl bd od tf ws mode)) = false ∧
        encodeCount (actionsOf (mkMovie start endT wl bd od tf ws mode)) = wl.length)) := by
  refine ⟨?_, ?_, ?_⟩
  · intro hm hlen
    subst hm
    cases hps : parseDT start with
    | none => simp [mkMovie, hps, raised]
    | some sdt =>
      cases hpe : parseDT endT with
      | none => simp [mkMovie, hps, hpe, raised]
      | some edt => simp [mkMovie, hps, hpe, raised, hlen]
  · intro hm hlen
    subst hm
    cases hps : parseDT start with
    | none => simp [mkMovie, hps, raised]
    | some sdt =>
      cases hpe : parseDT endT with
      | none => simp [mkMovie, hps, hpe, raised]
      | some edt => simp [mkMovie, hps, hpe, raised, hlen]
  · intro sdt edt hps hpe
    refine ⟨?_, ?_, ?_⟩
    · intro hm hlen
      subst hm
      simp [mkMovie, hps, hpe, raised, hlen]
    · intro hm hlen
      subst hm
      simp [mkMovie, hps, hpe, raised, hlen]
    · intro hm3 hm2
      refine ⟨?_, ?_, ?_⟩
      · simp [mkMovie, hps, hpe, hm3, hm2, raised]
      · simp only [mkMovie, hps, hpe]
        rw [if_neg (fun hc => hm3 hc.1), if_neg (fun hc => hm2 hc.1),
          if_neg hm3, if_neg hm2]
        simp only [actionsOf, hasComposite]
        exact hasComposite_map_encode _ (fun wv => ifEncode_shape _ wv _ _ _ _) wl
      · simp only [mkMovie, hps, hpe]
        rw [if_neg (fun hc => hm3 hc.1), if_neg (fun hc => hm2 hc.1),
          if_neg hm3, if_neg hm2]
        simp only [actionsOf, encodeCount]
        exact encodeCount_map_encode _ (fun wv => ifEncode_shape _ wv _ _ _ _) wl

/-- Witness for C5: a 3x3 request over eight channels raises; over nine it
does not; a singular-mode run has no composite and one encode per channel. -/
theorem c5_mode_validation_witness :
    raised (mkMovie demoStart demoEndLong eightChannels ("/data/") ("/out/") true ("171")
      ("3x3")) = true ∧
    raised (mkMovie demoStart demoEndLong nineChannels ("/data/") ("/out/") true ("171")
      ("3x3")) = false ∧
    raised (mkMovie demoStart demoEndLong nineChannels ("/data/") ("/out/") true ("171")
      ("singular")) = false ∧
    hasComposite (actionsOf (mkMovie demoStart demoEndLong nineChannels ("/data/")
      ("/out/") true ("171") ("singular"))) = false ∧
    encodeCount (actionsOf (mkMovie demoStart demoEndLong nineChannels ("/data/")
      ("/out/") true ("171") ("singular"))) = nineChannels.length := by
  refine ⟨?_, ?_, ?_, ?_, ?_⟩
  · exact (c5_mode_validation demoStart demoEndLong eightChannels ("/data/") ("/out/")
      true ("171") ("3x3")).1 rfl (by decide)
  · exact ((c5_mode_validation demoStart demoEndLong nineChannels ("/data/") ("/out/")
      true ("171") ("3x3")).2.2 demoStartDT demoEndLongDT (by decide) (by decide)).1
      rfl (by decide)
  · exact (((c5_mode_validation demoStart demoEndLong nineChannels ("/data/") ("/out/")
      true ("171") ("singular")).2.2 demoStartDT demoEndLongDT (by decide)
      (by decide)).2.2 (by decide) (by decide)).1
  · exact (((c5_mode_validation demoStart demoEndLong nineChannels ("/data/") ("/out/")
      true ("171") ("singular")).2.2 demoStartDT demoEndLongDT (by decide)
      (by decide)).2.2 (by decide) (by decide)).2.1
  · exact (((c5_mode_validation demoStart demoEndLong nineChannels ("/data/") ("/out/")
      true ("171") ("singular")).2.2 demoStartDT demoEndLongDT (by decide)
      (by decide)).2.2 (by decide) (by decide)).2.2

/-- The default-headed first element of a nonempty list is a member. -/
theorem headD_mem_of_length_pos {alpha : Type} (l : List alpha) (d : alpha)
    (h : 0 < l.length) : l.headD d ∈ l := by
  cases l with
  | nil => simp at h
  | cons a t => simp [List.headD]

/-- The default-valued i-th element of a long-enough list is a member. -/
theorem getD_mem_of_lt {alpha : Type} (l : List alpha) (i : Nat) (d : alpha)
    (h : i < l.length) : l.getD i d ∈ l := by
  rw [List.getD_eq_getElem?_getD, List.getElem?_eq_getElem h]
  exact List.getElem_mem h

/-- Counterexample to C1 as stated: the window 2015/01/17 07:00:00 to
07:00:24 with channel 171 yields 3 frame requests (the loop bounds are both
inclusive and the aligned start instant itself is emitted), while
floor((end - start)/12) = 2 and the claim says exactly 2. -/
theorem c1_cadence_count_counterexample :
    (demoRuns.map fun r => r.requests.length) = [3] ∧
    (dtToSeconds demoEnd24DT - dtToSeconds demoStartDT) / 12 = 2 :=
  ⟨by decide, by decide⟩

/-- Claim C1 (amended): for every window parsed from YYYY/mm/dd HH:MM:SS
strings, a non-skipped channel of a zero-cursor run emits exactly
floor(end/12) + 1 - ceil(start/12) frame requests (the number of instants in
the inclusive window whose absolute second count is a multiple of 12, i.e.
whose civil seconds-field is 12-aligned); every emitted instant lies on a
12-second boundary.  In particular the 07:00:00-07:00:24 window yields 3
requests, not 2. -/
theorem c1_cadence_count (start endT : String) (wl : List WVal) (bd : String)
    (xc yc : ℚ) (w h : Nat) (fs : List String) (sinf : ℚ → ℚ) (lat : ℚ)
    (sdt edt : CivilDT) (hs : parseDT start = some sdt) (he : parseDT endT = some edt)
    (r : ChannelRun)
    (hr : r ∈ runsOf (getPng start endT wl bd xc yc w h 0 0 fs sinf lat))
    (hns : r.skipped = false) :
    r.requests.length = dtToSeconds edt / 12 + 1 - (dtToSeconds sdt + 11) / 12 ∧
    (r.requests.all fun q => q.t % 12 == 0) = true := by
  obtain ⟨sdt2, edt2, hs2, he2, hmem⟩ :=
    runsOf_getPng_mem start endT wl bd xc yc w h 0 0 fs sinf lat r hr
  rw [hs] at hs2
  rw [he] at he2
  obtain rfl : sdt = sdt2 := Option.some.inj hs2
  obtain rfl : edt = edt2 := Option.some.inj he2
  obtain ⟨hdir, hiff, hemp, hnsx⟩ :=
    runChannels_mem _ _ _ _ _ _ _ _ _ _ wl 0 0 r hmem
  obtain ⟨a, b, hab, hreq⟩ := hnsx hns
  have hab0 : (a, b) = (0, 0) := hab.elim id id
  have ha0 : a = 0 := congrArg Prod.fst hab0
  have hb0 : b = 0 := congrArg Prod.snd hab0
  subst ha0
  subst hb0
  constructor
  · rw [hreq, channelRequests_length]
  · rw [hreq, channelRequests_closed, List.all_eq_true]
    intro q hq
    obtain ⟨i, hi, rfl⟩ := List.mem_map.1 hq
    simp only [beq_iff_eq]
    unfold align12
    omega

/-- Witness for C1 (amended) at the concrete 24-second window. -/
theorem c1_cadence_count_witness :
    (demoRuns.headD noRun).requests.length =
      dtToSeconds demoEnd24DT / 12 + 1 - (dtToSeconds demoStartDT + 11) / 12 ∧
    ((demoRuns.headD noRun).requests.all fun q => q.t % 12 == 0) = true :=
  c1_cadence_count demoStart demoEnd24 [WVal.int 171] demoBase 941.39 746.31 650 400 []
    zeroSin 0 demoStartDT demoEnd24DT (by decide) (by decide) (demoRuns.headD noRun)
    (headD_mem_of_length_pos demoRuns noRun (by decide)) (by decide)

/-- Claim C3: applying the resume cursor (skip-days, skip-hours) once — start
shifted forward by that many days and hours, running x-offset advanced by
(skip-days*24 + skip-hours) * 300 * delta — produces exactly the uninterrupted
run with every frame before the resume instant discarded; in particular the
first post-resume frame carries the same x-offset as in the uninterrupted
run. -/
theorem c3_resume_continuity (start endT : String) (wv : WVal) (bd : String)
    (xc yc : ℚ) (w h sd sh : Nat) (sinf : ℚ → ℚ) (lat : ℚ)
    (sdt edt : CivilDT) (hs : parseDT start = some sdt) (he : parseDT endT = some edt)
    (rR rU : ChannelRun)
    (hR : rR ∈ runsOf (getPng start endT [wv] bd xc yc w h sd sh [] sinf lat))
    (hU : rU ∈ runsOf (getPng start endT [wv] bd xc yc w h 0 0 [] sinf lat)) :
    rR.requests = rU.requests.drop ((sd * 24 + sh) * 300) ∧
    ((rU.requests.take ((sd * 24 + sh) * 300)).all fun q =>
      decide (q.t < dtToSeconds sdt + sd * 86400 + sh * 3600)) = true ∧
    (rR.requests.all fun q =>
      decide (dtToSeconds sdt + sd * 86400 + sh * 3600 ≤ q.t)) = true := by
  rw [runsOf, getPng_parsed start endT [wv] bd xc yc w h sd sh [] sinf lat sdt edt hs he,
    Option.getD_some] at hR
  rw [runsOf, getPng_parsed start endT [wv] bd xc yc w h 0 0 [] sinf lat sdt edt hs he,
    Option.getD_some] at hU
  simp only [runChannels, List.not_mem_nil, or_self, if_false, List.mem_singleton] at hR hU
  subst hR
  subst hU
  have hU0 : dtToSeconds sdt + 0 * 86400 + 0 * 3600 = dtToSeconds sdt := by omega
  have hx0 : pxToArcsec xc + (((0 * 24 + 0) * 300 : Nat) : ℚ) * perStepDelta sinf lat =
      pxToArcsec xc := by norm_num
  rw [hU0, hx0]
  refine ⟨channelRequests_resume wv (perStepDelta sinf lat) (pxToArcsec yc) w h
    (dtToSeconds sdt) (dtToSeconds edt) (pxToArcsec xc) sd sh, ?_, ?_⟩
  · rw [channelRequests_closed, ← List.map_take, List.take_range, List.all_eq_true]
    intro q hq
    obtain ⟨i, hi, rfl⟩ := List.mem_map.1 hq
    rw [List.mem_range] at hi
    simp only [decide_eq_true_eq]
    unfold align12
    omega
  · rw [channelRequests_closed, List.all_eq_true]
    intro q hq
    obtain ⟨i, hi, rfl⟩ := List.mem_map.1 hq
    simp only [decide_eq_true_eq]
    unfold align12
    omega

/-- Witness for C3 with cursor (0 days, 1 hour) on the 24-second window: the
resumed run equals the uninterrupted run with its first 300 frames dropped
(here: all of them). -/
theorem c3_resume_continuity_witness :
    (demoResumeRuns.headD noRun).requests =
      (demoRuns.headD noRun).requests.drop ((0 * 24 + 1) * 300) ∧
    (((demoRuns.headD noRun).requests.take ((0 * 24 + 1) * 300)).all fun q =>
      decide (q.t < dtToSeconds demoStartDT + 0 * 86400 + 1 * 3600)) = true ∧
    ((demoResumeRuns.headD noRun).requests.all fun q =>
      decide (dtToSeconds demoStartDT + 0 * 86400 + 1 * 3600 ≤ q.t)) = true :=
  c3_resume_continuity demoStart demoEnd24 (WVal.int 171) demoBase 941.39 746.31 650 400
    0 1 zeroSin 0 demoStartDT demoEnd24DT (by decide) (by decide)
    (demoResumeRuns.headD noRun) (demoRuns.headD noRun)
    (headD_mem_of_length_pos demoResumeRuns noRun (by decide))
    (headD_mem_of_length_pos demoRuns noRun (by decide))

/-- Claim C4: within one channel's (zero-cursor) run the x-offset sequence is
strictly increasing, each consecutive increment equals the single per-step
delta of the run, the offset is advanced exactly once per emitted request and
the frame is requested at the already-advanced offset (the i-th request's
offset is the converted xcenter plus (i+1) times the delta), and the y-offset
is identical in every request. -/
theorem c4_offset_progression (start endT : String) (wl : List WVal) (bd : String)
    (xc yc : ℚ) (w h : Nat) (fs : List String) (sinf : ℚ → ℚ) (lat : ℚ)
    (r : ChannelRun)
    (hr : r ∈ runsOf (getPng start endT wl bd xc yc w h 0 0 fs sinf lat))
    (hns : r.skipped = false) (hsin : |sinf (lat / 60)| ≤ 1) :
    List.Chain' (fun a b => b.x0 = a.x0 + perStepDelta sinf lat ∧ a.x0 < b.x0)
      r.requests ∧
    (r.requests.all fun q => q.y0 == pxToArcsec yc) = true ∧
    r.requests.map (fun q => q.x0) =
      (List.range r.requests.length).map
        (fun (i : Nat) => pxToArcsec xc + ((i : ℚ) + 1) * perStepDelta sinf lat) := by
  obtain ⟨sdt, edt, hps, hpe, hmem⟩ :=
    runsOf_getPng_mem start endT wl bd xc yc w h 0 0 fs sinf lat r hr
  obtain ⟨hdir, hiff, hemp, hnsx⟩ :=
    runChannels_mem _ _ _ _ _ _ _ _ _ _ wl 0 0 r hmem
  obtain ⟨a, b, hab, hreq⟩ := hnsx hns
  have hab0 : (a, b) = (0, 0) := hab.elim id id
  have ha0 : a = 0 := congrArg Prod.fst hab0
  have hb0 : b = 0 := congrArg Prod.snd hab0
  subst ha0
  subst hb0
  have hx0 : pxToArcsec xc + (((0 * 24 + 0) * 300 : Nat) : ℚ) * perStepDelta sinf lat =
      pxToArcsec xc := by norm_num
  rw [hx0] at hreq
  have hdpos := perStepDelta_pos sinf lat hsin
  refine ⟨?_, ?_, ?_⟩
  · rw [hreq, channelRequests_closed, List.chain'_map]
    cases hN : cnt12 (dtToSeconds sdt + 0 * 86400 + 0 * 3600)
        (dtToSeconds edt + 1 - (dtToSeconds sdt + 0 * 86400 + 0 * 3600)) with
    | zero => simp
    | succ m =>
      rw [List.chain'_range_succ]
      intro i him
      constructor
      · push_cast
        ring
      · have h1 : ((i : ℚ) + 1) * perStepDelta sinf lat <
            ((i : ℚ) + 1 + 1) * perStepDelta sinf lat := by nlinarith
        push_cast
        linarith
  · rw [hreq, channelRequests_closed, List.all_eq_true]
    intro q hq
    obtain ⟨i, hi, rfl⟩ := List.mem_map.1 hq
    simp
  · rw [hreq, channelRequests_closed]
    simp only [List.map_map, List.length_map, List.length_range]
    exact List.map_congr_left (fun i _ => rfl)

/-- Witness for C4 at the concrete 24-second window and channel 171. -/
theorem c4_offset_progression_witness :
    List.Chain' (fun a b => b.x0 = a.x0 + perStepDelta zeroSin 0 ∧ a.x0 < b.x0)
      (demoRuns.headD noRun).requests ∧
    ((demoRuns.headD noRun).requests.all fun q => q.y0 == pxToArcsec 746.31) = true ∧
    (demoRuns.headD noRun).requests.map (fun q => q.x0) =
      (List.range (demoRuns.headD noRun).requests.length).map
        (fun (i : Nat) => pxToArcsec 941.39 + ((i : ℚ) + 1) * perStepDelta zeroSin 0) :=
  c4_offset_progression demoStart demoEnd24 [WVal.int 171] demoBase 941.39 746.31 650 400
    [] zeroSin 0 (demoRuns.headD noRun)
    (headD_mem_of_length_pos demoRuns noRun (by decide)) (by decide)
    (by norm_num [zeroSin])

/-- Counterexample to C6 as stated: with only a stray HMI_Mag-tagged terminal
file present in the 171 channel directory — the expected AIA-tagged terminal
filename for channel 171 is absent — the channel is nevertheless skipped. -/
theorem c6_skip_terminal_counterexample :
    (demoSkipRuns.map fun r => r.skipped) = [true] ∧
    ¬ aiaName ("/d/2015/01/17/171/") ("2015_01_17_07_00_24_") (WVal.int 171) ∈
        [strayHmiFile] ∧
    (demoSkipRuns.map fun r => r.requests.length) = [0] :=
  ⟨by decide, by decide, by decide⟩

/-- Claim C6 (amended): each channel's directory is recorded (created) before
the skip check, a skipped channel issues zero frame requests, and a channel is
skipped if and only if either of the two probed terminal filenames — the
AIA-tagged or the HMI_Mag-tagged name derived from the end instant — already
exists in the channel directory; nothing but these two terminal names is
inspected. -/
theorem c6_skip_terminal (start endT : String) (wl : List WVal) (bd : String)
    (xc yc : ℚ) (w h sd sh : Nat) (fs : List String) (sinf : ℚ → ℚ) (lat : ℚ)
    (sdt edt : CivilDT) (hs : parseDT start = some sdt) (he : parseDT endT = some edt)
    (r : ChannelRun)
    (hr : r ∈ runsOf (getPng start endT wl bd xc yc w h sd sh fs sinf lat)) :
    r.dir = (ensureSlash bd ++ (firstField start ++ "/")) ++ wvStr r.wv ++ "/" ∧
    (r.skipped = true ↔
      (aiaName r.dir (fmtUnderscore edt) r.wv ∈ fs ∨
        hmiName r.dir (fmtUnderscore edt) ∈ fs)) ∧
    (r.skipped = true → r.requests = []) := by
  obtain ⟨sdt2, edt2, hs2, he2, hmem⟩ :=
    runsOf_getPng_mem start endT wl bd xc yc w h sd sh fs sinf lat r hr
  rw [hs] at hs2
  rw [he] at he2
  obtain rfl : sdt = sdt2 := Option.some.inj hs2
  obtain rfl : edt = edt2 := Option.some.inj he2
  obtain ⟨hdir, hiff, hemp, _⟩ :=
    runChannels_mem _ _ _ _ _ _ _ _ _ _ wl sd sh r hmem
  exact ⟨hdir, hiff, hemp⟩

/-- Witness for C6 (amended) at the stray-HMI-file scenario. -/
theorem c6_skip_terminal_witness :
    (demoSkipRuns.headD noRun).dir =
      (ensureSlash demoBase ++ (firstField demoStart ++ "/")) ++
        wvStr (demoSkipRuns.headD noRun).wv ++ "/" ∧
    ((demoSkipRuns.headD noRun).skipped = true ↔
      (aiaName (demoSkipRuns.headD noRun).dir (fmtUnderscore demoEnd24DT)
          (demoSkipRuns.headD noRun).wv ∈ [strayHmiFile] ∨
        hmiName (demoSkipRuns.headD noRun).dir (fmtUnderscore demoEnd24DT) ∈
          [strayHmiFile])) ∧
    ((demoSkipRuns.headD noRun).skipped = true →
      (demoSkipRuns.headD noRun).requests = []) :=
  c6_skip_terminal demoStart demoEnd24 [WVal.int 171] demoBase 941.39 746.31 650 400 0 0
    [strayHmiFile] zeroSin 0 demoStartDT demoEnd24DT (by decide) (by decide)
    (demoSkipRuns.headD noRun)
    (headD_mem_of_length_pos demoSkipRuns noRun (by decide))

/-- Claim C8: the per-step delta equals
2460 / (180 / (14.713 + (-2.396) sin(lat/60)^2 + (-1.787) sin(lat/60)^4)) / 2 / 3600
(divisor 60 exactly as written), and this single run-level value is the
increment of every consecutive request pair in every channel of the run — the
rate computation is per run, not per frame. -/
theorem c8_rate_and_delta (sinf : ℚ → ℚ) (lat : ℚ) :
    perStepDelta sinf lat =
      2460 / (180 / ((14.713 : ℚ) + (-2.396 : ℚ) * (sinf (lat / 60)) ^ 2 +
        (-1.787 : ℚ) * (sinf (lat / 60)) ^ 4)) / 2 / 3600 ∧
    ∀ (start endT : String) (wl : List WVal) (bd : String) (xc yc : ℚ)
      (w h sd sh : Nat) (fs : List String) (r : ChannelRun),
      r ∈ runsOf (getPng start endT wl bd xc yc w h sd sh fs sinf lat) →
      List.Chain' (fun a b => b.x0 = a.x0 + perStepDelta sinf lat) r.requests := by
  constructor
  · rfl
  · intro start endT wl bd xc yc w h sd sh fs r hr
    obtain ⟨sdt, edt, hps, hpe, hmem⟩ :=
      runsOf_getPng_mem start endT wl bd xc yc w h sd sh fs sinf lat r hr
    obtain ⟨_, _, hemp, hnsx⟩ :=
      runChannels_mem _ _ _ _ _ _ _ _ _ _ wl sd sh r hmem
    cases hsk : r.skipped with
    | true => rw [hemp hsk]; simp
    | false =>
      obtain ⟨a, b, hab, hreq⟩ := hnsx hsk
      rw [hreq, channelRequests_closed, List.chain'_map]
      cases hN : cnt12 (dtToSeconds sdt + a * 86400 + b * 3600)
          (dtToSeconds edt + 1 - (dtToSeconds sdt + a * 86400 + b * 3600)) with
      | zero => simp
      | succ m =>
        rw [List.chain'_range_succ]
        intro i him
        push_cast
        ring

/-- Witness for C8 at a concrete sine stand-in and the 24-second window. -/
theorem c8_rate_and_delta_witness :
    perStepDelta zeroSin 0 =
      2460 / (180 / ((14.713 : ℚ) + (-2.396 : ℚ) * (zeroSin (0 / 60)) ^ 2 +
        (-1.787 : ℚ) * (zeroSin (0 / 60)) ^ 4)) / 2 / 3600 ∧
    List.Chain' (fun a b => b.x0 = a.x0 + perStepDelta zeroSin 0)
      (demoRuns.headD noRun).requests :=
  ⟨(c8_rate_and_delta zeroSin 0).1,
    (c8_rate_and_delta zeroSin 0).2 demoStart demoEnd24 [WVal.int 171] demoBase 941.39
      746.31 650 400 0 0 [] (demoRuns.headD noRun)
      (headD_mem_of_length_pos demoRuns noRun (by decide))⟩

/-- Claim C10: with a zero resume cursor the running x-offset restarts from
the converted initial center at every channel, so any two non-skipped channels
of the same run are requested with identical (instant, x-offset) sequences. -/
theorem c10_offset_reset (start endT : String) (wl : List WVal) (bd : String)
    (xc yc : ℚ) (w h : Nat) (fs : List String) (sinf : ℚ → ℚ) (lat : ℚ)
    (r1 r2 : ChannelRun)
    (h1 : r1 ∈ runsOf (getPng start endT wl bd xc yc w h 0 0 fs sinf lat))
    (h2 : r2 ∈ runsOf (getPng start endT wl bd xc yc w h 0 0 fs sinf lat))
    (hn1 : r1.skipped = false) (hn2 : r2.skipped = false) :
    r1.requests.map (fun q => (q.t, q.x0)) = r2.requests.map (fun q => (q.t, q.x0)) := by
  obtain ⟨sdt, edt, hps, hpe, hm1⟩ :=
    runsOf_getPng_mem start endT wl bd xc yc w h 0 0 fs sinf lat r1 h1
  obtain ⟨sdt2, edt2, hps2, hpe2, hm2⟩ :=
    runsOf_getPng_mem start endT wl bd xc yc w h 0 0 fs sinf lat r2 h2
  rw [hps] at hps2
  rw [hpe] at hpe2
  obtain rfl : sdt = sdt2 := Option.some.inj hps2
  obtain rfl : edt = edt2 := Option.some.inj hpe2
  obtain ⟨_, _, _, hnsx1⟩ := runChannels_mem _ _ _ _ _ _ _ _ _ _ wl 0 0 r1 hm1
  obtain ⟨_, _, _, hnsx2⟩ := runChannels_mem _ _ _ _ _ _ _ _ _ _ wl 0 0 r2 hm2
  obtain ⟨a1, b1, hab1, hreq1⟩ := hnsx1 hn1
  obtain ⟨a2, b2, hab2, hreq2⟩ := hnsx2 hn2
  have hab10 : (a1, b1) = (0, 0) := hab1.elim id id
  have hab20 : (a2, b2) = (0, 0) := hab2.elim id id
  have ha1 : a1 = 0 := congrArg Prod.fst hab10
  have hb1 : b1 = 0 := congrArg Prod.snd hab10
  have ha2 : a2 = 0 := congrArg Prod.fst hab20
  have hb2 : b2 = 0 := congrArg Prod.snd hab20
  subst ha1
  subst hb1
  subst ha2
  subst hb2
  rw [hreq1, hreq2, channelRequests_closed, channelRequests_closed]
  simp only [List.map_map]
  rfl

/-- Witness for C10: channels 171 and 304 of the same run receive identical
(instant, x-offset) sequences. -/
theorem c10_offset_reset_witness :
    (demoPairRuns.headD noRun).requests.map (fun q => (q.t, q.x0)) =
      (demoPairRuns.getD 1 noRun).requests.map (fun q => (q.t, q.x0)) :=
  c10_offset_reset demoStart demoEnd24 [WVal.int 171, WVal.int 304] demoBase 941.39
    746.31 650 400 [] zeroSin 0 (demoPairRuns.headD noRun) (demoPairRuns.getD 1 noRun)
    (headD_mem_of_length_pos demoPairRuns noRun (by decide))
    (getD_mem_of_lt demoPairRuns 1 noRun (by decide)) (by decide) (by decide)

/-- When every filename stem has at least six underscore-separated fields, the
annotation loop succeeds and produces exactly one output per input file, in
order, under the same filename. -/
theorem stampFiles_ok (destDir : String) (heightOf : String → Nat) :
    ∀ files : List String, (files.all fun fn => (stampText fn).isSome) = true →
    stampFiles destDir heightOf files =
      Except.ok (files.map fun fn =>
        ⟨destDir ++ fn, (stampText fn).getD "", 20, (heightOf fn : Int) - 50⟩) := by
  intro files
  induction files with
  | nil => intro _; rfl
  | cons fn rest ih =>
    intro hall
    rw [List.all_cons, Bool.and_eq_true] at hall
    obtain ⟨hfn, hrest⟩ := hall
    obtain ⟨txt, htxt⟩ := Option.isSome_iff_exists.1 hfn
    simp [stampFiles, htxt, ih hrest]

/-- When some filename stem has fewer than six fields, the annotation loop
raises. -/
theorem stampFiles_err (destDir : String) (heightOf : String → Nat) :
    ∀ files : List String, (files.all fun fn => (stampText fn).isSome) = false →
    raised (stampFiles destDir heightOf files) = true := by
  intro files
  induction files with
  | nil => intro hall; simp at hall
  | cons fn rest ih =>
    intro hall
    cases htxt : stampText fn with
    | none => simp [stampFiles, htxt, raised]
    | some txt =>
      have hfn : (stampText fn).isSome = true := by rw [htxt]; rfl
      have hrest : (rest.all fun f => (stampText f).isSome) = false := by
        rw [List.all_cons, hfn] at hall
        simpa using hall
      have hraised := ih hrest
      cases hsf : stampFiles destDir heightOf rest with
      | error e => simp [stampFiles, htxt, hsf, raised]
      | ok outs => rw [hsf] at hraised; simp [raised] at hraised

/-- Counterexample to C7 as stated: the filename a_b_c_d_e_f.png does not
carry six numeric fields (its first field a is not numeric), yet annotation
does not abort: the file is processed and written, with the non-numeric
fields rendered into the overlay text. -/
theorem c7_overlay_counterexample :
    timestampStage demoStart demoBase ("171") (fun _ => 400) [("a_b_c_d_e_f.png")] =
      Except.ok [⟨("/d/2015/01/17/171-timestamped/a_b_c_d_e_f.png"),
        ("a/b/c   d:e:f"), 20, 350⟩] ∧
    strToNat ("a") = none :=
  ⟨by decide, by decide⟩

/-- Claim C7 (amended): when every filename stem in the source directory has
at least six underscore-separated fields, annotation processes every file —
rendering the first six fields as F0/F1/F2 (three spaces) F3:F4:F5, anchoring
the text at (20, height - 50) near the bottom-left, and writing the result
under the same filename into the sibling directory suffixed -timestamped,
unconditionally (the destination is never checked, so existing files are
overwritten and no frame is skipped); a filename whose stem has fewer than six
fields makes the run abort, but field contents are never validated as
numeric. -/
theorem c7_overlay (start bd ws : String) (heightOf : String → Nat)
    (files : List String) :
    ((files.all fun fn => (stampText fn).isSome) = true →
      timestampStage start bd ws heightOf files =
        Except.ok (files.map fun fn =>
          ⟨(ensureSlash bd ++ (firstField start ++ "/") ++ ws ++ "-timestamped/") ++ fn,
            (stampText fn).getD "", 20, (heightOf fn : Int) - 50⟩)) ∧
    ((files.all fun fn => (stampText fn).isSome) = false →
      raised (timestampStage start bd ws heightOf files) = true) := by
  constructor
  · intro hall
    exact stampFiles_ok (ensureSlash bd ++ (firstField start ++ "/") ++ ws ++
      "-timestamped/") heightOf files hall
  · intro hfail
    exact stampFiles_err (ensureSlash bd ++ (firstField start ++ "/") ++ ws ++
      "-timestamped/") heightOf files hfail

/-- Witness for C7 (amended): one conforming file is annotated with the
rendered timestamp and one underscore-poor filename aborts. -/
theorem c7_overlay_witness :
    timestampStage demoStart demoBase ("171") (fun _ => 400)
        [("2015_01_17_07_00_00_AIA_171.png")] =
      Except.ok [⟨("/d/2015/01/17/171-timestamped/2015_01_17_07_00_00_AIA_171.png"),
        ("2015/01/17   07:00:00"), 20, 350⟩] ∧
    raised (timestampStage demoStart demoBase ("171") (fun _ => 400)
      [("badname.png")]) = true := by
  constructor
  · have h := (c7_overlay demoStart demoBase ("171") (fun _ => 400)
      [("2015_01_17_07_00_00_AIA_171.png")]).1 (by decide)
    rw [h]
    decide
  · exact (c7_overlay demoStart demoBase ("171") (fun _ => 400)
      [("badname.png")]).2 (by decide)

end Helio
